import Mathlib

/-!
Shallow embedding of `src/timer/opm.rs` (one-pulse mode driver for STM32G0 timers)
and proofs about it.

The driver's numeric core (the `opm!` macro body) derives a prescaler and reload
value from the peripheral clock and a requested period, and the channel half
(the `opm_hal!` macro body) programs a compare value and output mode per channel.
Machine integers are embedded as `Nat` with explicit `% 2^32` / `% 2^16`
reductions exactly where the Rust code performs 32-bit arithmetic or `as u16`
casts.
-/

namespace OpmSpec

/-- `2^32`, the size of the `u32` value space used by the configure arithmetic. -/
def u32Size : Nat := 4294967296

/-- Modelled from the spec: the duration/frequency utility collaborator
(`crate::time`, not under `src/`). `MicroSecond::cycles(clk)` converts a duration
of `us` microseconds into an integer cycle count at frequency `clk` (in Hz),
"truncating fractional cycles" (spec, section 6). -/
def cycles (us clk : Nat) : Nat := us * clk / 1000000

/-- Modelled from the spec: `rcc.clocks.apb_tim_clk / period.into()` in the
configure body (the division and conversion live in `crate::time`, not in
`src/`). Spec, section 4.1 step 1: "cycles_per_period = peripheral_clock_frequency
/ desired_period (integer division; total raw clock cycles needed)", with the
section 8 scenario fixing the semantics (48 MHz and 2 s give 96,000,000 cycles).
The result is a `u32` in the code, hence the reduction mod `2^32`. -/
def cycles_per_period (clk us : Nat) : Nat := clk * us / 1000000 % u32Size

/-- `let psc = (cycles_per_period - 1) / 0xffff;` (opm.rs line 56). The
subtraction is 32-bit machine subtraction: on `cycles_per_period = 0` it wraps
modulo `2^32`, which the embedding makes explicit by adding `2^32 - 1` and
reducing. -/
def psc (clk us : Nat) : Nat :=
  (cycles_per_period clk us + (u32Size - 1)) % u32Size / 0xffff

/-- `tim.psc.write(|w| w.psc().bits(psc as u16))` (opm.rs line 57): the value
that actually reaches the 16-bit prescaler register, after the `as u16` cast. -/
def psc_programmed (clk us : Nat) : Nat := psc clk us % 65536

/-- `let freq = (rcc.clocks.apb_tim_clk.0 / (psc + 1)).hz();` (opm.rs line 59).
Note that this uses the full (uncast) 32-bit `psc` value. -/
def freq (clk us : Nat) : Nat := clk / (psc clk us + 1)

/-- `let reload = period.cycles(freq);` (opm.rs line 60). -/
def reload (clk us : Nat) : Nat := cycles us (freq clk us)

/-- `tim.arr.write(|w| w.arr().bits(reload as u16))` (opm.rs line 62): the value
reaching a 16-bit reload register after the `as u16` cast. -/
def reload_programmed_16 (clk us : Nat) : Nat := reload clk us % 65536

/-- Wide (split-register) instances, e.g. TIM3: `arr_l` receives
`reload as u16` and `arr_h` receives `(reload >> 16) as u16` (opm.rs lines
62-64), so the combined programmed reload is `reload % 2^32`. -/
def reload_programmed_32 (clk us : Nat) : Nat :=
  reload clk us % 65536 + reload clk us / 65536 % 65536 * 65536

/-- The reload value the configure body would compute had it chosen prescaler
`p`: `period.cycles((apb_tim_clk / (p + 1)).hz())`. Used to express minimality
of the chosen prescaler. -/
def reload_at (clk us p : Nat) : Nat := cycles us (clk / (p + 1))

/-! ## Channel half (`opm_hal!` macro body, opm.rs lines 88-117)

One channel's relevant state: the two fields of the `OpmPin` struct (`clk`,
`delay`) together with the hardware bits this channel's methods touch (the
`ccer` enable bit, the `ccrX` compare register, and the `ocXm` / `ocXfe` fields
of the `ccmrX` register). -/

structure PinState where
  clk : Nat
  delay : Nat
  cc_enabled : Bool
  ccr : Nat
  ocm : Nat
  ocfe : Bool
deriving DecidableEq

/-- The compare value `setup` computes (opm.rs lines 107-111):
`if self.delay.0 > 0 { self.delay.cycles(self.clk) } else { 1 }`. -/
def compare_value (s : PinState) : Nat :=
  if 0 < s.delay then cycles s.delay s.clk else 1

/-- `OpmPin::setup` (opm.rs lines 105-116): writes the compare register and
sets the output-compare mode field to 7 and the fast-enable bit. -/
def setup (s : PinState) : PinState :=
  { s with ccr := compare_value s, ocm := 7, ocfe := true }

/-- `OpmPin::enable` (opm.rs lines 89-93): sets the `ccer` enable bit, then
calls `setup`. -/
def enable (s : PinState) : PinState :=
  setup { s with cc_enabled := true }

/-- `OpmPin::disable` (opm.rs lines 95-98): clears the `ccer` enable bit and
does nothing else. -/
def disable (s : PinState) : PinState :=
  { s with cc_enabled := false }

/-- `OpmPin::set_delay` (opm.rs lines 100-103): stores the new delay, then
calls `setup`. -/
def set_delay (d : Nat) (s : PinState) : PinState :=
  setup { s with delay := d }

/-! ## `Opm::generate` (opm.rs lines 74-77) -/

/-- Bit position of the counter-enable bit `cen` in the timer control register
`cr1`. Modelled from the device register description consumed through the
peripheral-access crate (an external collaborator): `CEN` is bit 0 of `TIMx_CR1`. -/
def cenBit : Nat := 0

/-- Bit position of the one-pulse-mode bit `opm` in `cr1`: bit 3 of `TIMx_CR1`
(same external register description). -/
def opmBit : Nat := 3

/-- The value built by `w.opm().set_bit().cen().set_bit()`: an svd2rust `write`
starts from the register's reset value (0 for `TIMx_CR1`) and sets exactly the
named bits. -/
def cr1_write_value : Nat := 2 ^ opmBit + 2 ^ cenBit

/-- One observable register write. Only `cr1` is written by `generate`. -/
inductive RegWrite where
  | cr1 (value : Nat)
deriving DecidableEq

/-- `Opm::generate` (opm.rs lines 74-77) performs exactly this sequence of
register writes: a single full write of `cr1`. -/
def generate_writes : List RegWrite := [RegWrite.cr1 cr1_write_value]

/-- Effect of `Opm::generate` on the `cr1` register value: `write` (as opposed
to `modify`) replaces the whole register, independent of its old value. -/
def generate (_cr1_old : Nat) : Nat := cr1_write_value

/-- A sample channel state used by witnesses: a channel on a 1 MHz effective
clock with no delay configured yet. -/
def sampleState : PinState :=
  { clk := 1000000, delay := 0, cc_enabled := false, ccr := 0, ocm := 0, ocfe := false }

/-! ## Helper lemmas -/

/-- When `cycles_per_period` is nonzero, the wrapping 32-bit subtraction in the
prescaler derivation is an ordinary subtraction. -/
theorem psc_eq_of_pos (clk us : Nat) (h : 1 ≤ cycles_per_period clk us) :
    psc clk us = (cycles_per_period clk us - 1) / 0xffff := by
  have hlt : cycles_per_period clk us < u32Size := Nat.mod_lt _ (by norm_num [u32Size])
  have hu : 1 ≤ u32Size := by norm_num [u32Size]
  unfold psc
  have h2 : cycles_per_period clk us + (u32Size - 1)
      = (cycles_per_period clk us - 1) + u32Size := by omega
  rw [h2, Nat.add_mod_right, Nat.mod_eq_of_lt (by omega)]

/-- Applying `enable` twice is the same as applying it once. -/
theorem enable_enable (s : PinState) : enable (enable s) = enable s := rfl

/-! ## Claims -/

/-- C2 (amended): the prescaler computed by the configure body is the minimum
value `p` for which the *un-prescaled* cycle count fits a 16-bit reload at
prescaler `p`, i.e. the minimum `p` with `cycles_per_period ≤ (p+1) * 0xffff`;
the same 16-bit bound `0xffff` is used for every timer instance, including the
wide split-register ones. -/
theorem psc_minimal_for_unprescaled_16bit (clk us : Nat)
    (h : 1 ≤ cycles_per_period clk us) :
    cycles_per_period clk us ≤ (psc clk us + 1) * 0xffff ∧
    ∀ p : Nat, cycles_per_period clk us ≤ (p + 1) * 0xffff → psc clk us ≤ p := by
  have hpsc := psc_eq_of_pos clk us h
  constructor
  · have hd := Nat.div_add_mod (cycles_per_period clk us - 1) 0xffff
    have hm : (cycles_per_period clk us - 1) % 0xffff < 0xffff :=
      Nat.mod_lt _ (by norm_num)
    rw [hpsc]
    omega
  · intro p hp
    rw [hpsc]
    have hlt : cycles_per_period clk us - 1 < (p + 1) * 0xffff := by omega
    exact Nat.lt_succ_iff.mp ((Nat.div_lt_iff_lt_mul (by norm_num)).mpr hlt)

/-- C2 (witness): at 48 MHz and 1000 µs the chosen prescaler satisfies the
fitting bound. -/
theorem psc_minimal_for_unprescaled_16bit_witness :
    cycles_per_period 48000000 1000 ≤ (psc 48000000 1000 + 1) * 0xffff :=
  (psc_minimal_for_unprescaled_16bit 48000000 1000 (by decide)).1

/-- C2 (counterexample): the chosen prescaler is not the minimum one making the
resulting reload fit the counter's bit width. On a wide (32-bit) instance, at
48 MHz and 100000 µs the body picks prescaler 73 although prescaler 0 already
yields reload 4800000 ≤ 0xffffffff; and even on a 16-bit instance, at
131071 Hz and 1 s the body picks prescaler 2 although prescaler 1 already
yields reload 65535 ≤ 0xffff. -/
theorem psc_minimal_counterexample :
    psc 48000000 100000 = 73 ∧
    reload_at 48000000 100000 0 = 4800000 ∧
    reload_at 48000000 100000 0 ≤ 0xffffffff ∧
    (0 : Nat) < 73 ∧
    psc 131071 1000000 = 2 ∧
    reload_at 131071 1000000 1 = 65535 ∧
    reload_at 131071 1000000 1 ≤ 0xffff ∧
    (1 : Nat) < 2 := by decide

/-- C3 (amended): `set_delay(0)` writes compare = 1, and a positive delay
writes compare = `delay.cycles(clk)` unclamped — which is at least 1 whenever
the delay spans at least one effective-clock tick (`1000000 ≤ delay * clk`),
but 0 when the cycle count truncates to 0. -/
theorem set_delay_compare (s : PinState) :
    (set_delay 0 s).ccr = 1 ∧
    (∀ d : Nat, 0 < d → (set_delay d s).ccr = cycles d s.clk) ∧
    (∀ d : Nat, 1000000 ≤ d * s.clk → 1 ≤ (set_delay d s).ccr) := by
  refine ⟨rfl, fun d hd => ?_, fun d hd => ?_⟩
  · show (if 0 < d then cycles d s.clk else 1) = cycles d s.clk
    rw [if_pos hd]
  · show 1 ≤ (if 0 < d then cycles d s.clk else 1)
    rcases Nat.eq_zero_or_pos d with h0 | h0
    · rw [h0, if_neg (by omega)]
    · rw [if_pos h0]
      exact (Nat.le_div_iff_mul_le (by norm_num)).mpr (by omega)

/-- C3 (witness): on a 1 MHz channel, `set_delay(0)` gives compare 1 and
`set_delay(100)` gives compare 100 (= its cycle count, which is ≥ 1). -/
theorem set_delay_compare_witness :
    (set_delay 0 sampleState).ccr = 1 ∧
    (set_delay 100 sampleState).ccr = cycles 100 1000000 ∧
    1 ≤ (set_delay 100 sampleState).ccr :=
  ⟨(set_delay_compare sampleState).1,
   (set_delay_compare sampleState).2.1 100 (by norm_num),
   (set_delay_compare sampleState).2.2 100 (by decide)⟩

/-- C3 (counterexample): a nonzero delay whose cycle count truncates to 0 is
*not* clamped: on a channel with effective clock 32761 Hz, `set_delay(1)`
writes compare = 0, violating the claimed `compare ≥ 1` invariant. -/
theorem set_delay_compare_zero_counterexample :
    (0 : Nat) < 1 ∧
    (set_delay 1 { clk := 32761, delay := 0, cc_enabled := false,
                   ccr := 5, ocm := 0, ocfe := false }).ccr = 0 := by decide

/-- C4 (amended): with a 48 MHz peripheral clock and a 1000 µs period the
configure body yields prescaler 0 and effective frequency 48 MHz, but programs
reload = 48000 (= `period.cycles(48 MHz)`, with no `- 1`), not 47999. -/
theorem configure_48mhz_1ms :
    psc 48000000 1000 = 0 ∧
    freq 48000000 1000 = 48000000 ∧
    reload 48000000 1000 = 48000 ∧
    reload_programmed_16 48000000 1000 = 48000 := by decide

/-- C4 (counterexample): the programmed reload at 48 MHz / 1000 µs is 48000,
not 47999 as claimed. -/
theorem configure_48mhz_1ms_counterexample :
    psc 48000000 1000 = 0 ∧
    freq 48000000 1000 = 48000000 ∧
    reload 48000000 1000 ≠ 47999 := by decide

/-- C5 (amended): an unrepresentably long period (more raw cycles than the
maximum `(psc+1) * (reload+1) = 0x10000 * 0x10000` the registers can express)
does not saturate: the cycle count is truncated to `u32` and the `as u16`
casts truncate further, so the programmed configuration expresses strictly
fewer cycles than required — a shorter period, with no overflow signal. -/
theorem overlong_period_wraps_shorter (clk us : Nat)
    (h : 4294967296 < clk * us / 1000000) :
    (psc_programmed clk us + 1) * (reload_programmed_16 clk us + 1)
      < clk * us / 1000000 := by
  have h1 : psc_programmed clk us < 65536 := Nat.mod_lt _ (by norm_num)
  have h2 : reload_programmed_16 clk us < 65536 := Nat.mod_lt _ (by norm_num)
  calc (psc_programmed clk us + 1) * (reload_programmed_16 clk us + 1)
      ≤ 65536 * 65536 := Nat.mul_le_mul (by omega) (by omega)
    _ = 4294967296 := by norm_num
    _ < clk * us / 1000000 := h

/-- C5 (witness): a 100 s period at 48 MHz needs 4.8e9 raw cycles, beyond the
register dynamic range, and the programmed configuration expresses fewer. -/
theorem overlong_period_wraps_shorter_witness :
    (psc_programmed 48000000 100000000 + 1)
      * (reload_programmed_16 48000000 100000000 + 1)
      < 48000000 * 100000000 / 1000000 :=
  overlong_period_wraps_shorter 48000000 100000000 (by norm_num)

/-- C5 (counterexample): no saturation happens. A 100 s period at 48 MHz
(4.8e9 raw cycles, beyond the dynamic range) programs prescaler 7706 and
reload 32976 — neither register is clamped to its maximum 0xffff. -/
theorem overlong_period_no_saturation_counterexample :
    4294967296 < 48000000 * 100000000 / 1000000 ∧
    psc_programmed 48000000 100000000 = 7706 ∧
    reload_programmed_16 48000000 100000000 = 32976 ∧
    psc_programmed 48000000 100000000 ≠ 0xffff ∧
    reload_programmed_16 48000000 100000000 ≠ 0xffff := by decide

/-- C6: calling `enable` N ≥ 1 times in succession leaves the whole channel
state (compare register, output-mode bits, enable bit, stored delay) exactly
as one call does; each `enable` sets the enable bit and re-applies the
compare / output-mode configuration derived from the currently stored delay. -/
theorem enable_idempotent (s : PinState) (n : Nat) (hn : 1 ≤ n) :
    enable^[n] s = enable s ∧
    (enable s).cc_enabled = true ∧
    (enable s).ccr = compare_value s ∧
    (enable s).ocm = 7 ∧
    (enable s).ocfe = true := by
  refine ⟨?_, rfl, rfl, rfl, rfl⟩
  obtain ⟨m, rfl⟩ : ∃ m, n = m + 1 := ⟨n - 1, by omega⟩
  clear hn
  induction m with
  | zero => rw [Function.iterate_one]
  | succ k ih => rw [Function.iterate_succ_apply', ih, enable_enable]

/-- C6 (witness): three calls of `enable` on a concrete channel state equal
one call. -/
theorem enable_idempotent_witness :
    enable^[3] sampleState = enable sampleState :=
  (enable_idempotent sampleState 3 (by norm_num)).1

/-- C7: `disable` clears only the output-compare-enable bit, leaving the
stored delay, the compare register and the output-mode bits untouched; hence
`disable` followed by `enable` (no intervening `set_delay`) reprograms exactly
the compare value derived from the previously configured delay. -/
theorem disable_frame (s : PinState) :
    (disable s).delay = s.delay ∧
    (disable s).clk = s.clk ∧
    (disable s).ccr = s.ccr ∧
    (disable s).ocm = s.ocm ∧
    (disable s).ocfe = s.ocfe ∧
    (disable s).cc_enabled = false ∧
    enable (disable s) = enable s ∧
    (enable (disable s)).ccr = compare_value s :=
  ⟨rfl, rfl, rfl, rfl, rfl, rfl, rfl, rfl⟩

/-- C8: `generate` performs exactly one register write — a write of `cr1` —
and the written value has both the one-pulse-mode bit and the counter-enable
bit set. -/
theorem generate_single_write :
    generate_writes.length = 1 ∧
    generate_writes = [RegWrite.cr1 cr1_write_value] ∧
    Nat.testBit cr1_write_value opmBit = true ∧
    Nat.testBit cr1_write_value cenBit = true := by
  refine ⟨rfl, rfl, by decide, by decide⟩

/-- C9: the u32 subtraction `cycles_per_period - 1` does not wrap exactly when
`cycles_per_period ≥ 1`; when the quotient is 0 it wraps to `2^32 - 1`, and
the derived prescaler is then 65537 (programmed as 1 after the `as u16` cast)
— not a minimum-period fallback. -/
theorem cycles_sub_underflow (clk us : Nat) :
    (1 ≤ cycles_per_period clk us →
      (cycles_per_period clk us + (u32Size - 1)) % u32Size
        = cycles_per_period clk us - 1) ∧
    (cycles_per_period clk us = 0 →
      (cycles_per_period clk us + (u32Size - 1)) % u32Size = u32Size - 1 ∧
      psc clk us = 65537 ∧ psc clk us ≠ 0 ∧ psc_programmed clk us = 1) := by
  have hlt : cycles_per_period clk us < u32Size := Nat.mod_lt _ (by norm_num [u32Size])
  have hu : 1 ≤ u32Size := by norm_num [u32Size]
  constructor
  · intro h
    have h2 : cycles_per_period clk us + (u32Size - 1)
        = (cycles_per_period clk us - 1) + u32Size := by omega
    rw [h2, Nat.add_mod_right, Nat.mod_eq_of_lt (by omega)]
  · intro h0
    refine ⟨?_, ?_, ?_, ?_⟩
    · rw [h0]; decide
    · unfold psc; rw [h0]; decide
    · unfold psc; rw [h0]; decide
    · unfold psc_programmed psc; rw [h0]; decide

/-- C9 (witness): at 48 MHz / 1000 µs the subtraction does not wrap; at
100 Hz / 1 µs the cycle quotient is 0, the subtraction wraps, and the derived
prescaler is 65537 (programmed as 1). -/
theorem cycles_sub_underflow_witness :
    (cycles_per_period 48000000 1000 + (u32Size - 1)) % u32Size
      = cycles_per_period 48000000 1000 - 1 ∧
    psc 100 1 = 65537 ∧
    psc_programmed 100 1 = 1 :=
  ⟨(cycles_sub_underflow 48000000 1000).1 (by decide),
   ((cycles_sub_underflow 100 1).2 (by decide)).2.1,
   ((cycles_sub_underflow 100 1).2 (by decide)).2.2.2⟩

/-- C10: `generate` writes `cr1` with a full write: the result is the fixed
value `cr1_write_value` independent of the register's previous contents, and
every bit other than the counter-enable bit and the one-pulse-mode bit is 0
afterwards. -/
theorem generate_clears_other_bits (old b : Nat)
    (hb1 : b ≠ cenBit) (hb2 : b ≠ opmBit) :
    generate old = cr1_write_value ∧
    generate old = generate 0 ∧
    Nat.testBit (generate old) b = false := by
  refine ⟨rfl, rfl, ?_⟩
  show Nat.testBit 9 b = false
  rcases Nat.lt_or_ge b 4 with h | h
  · interval_cases b
    · exact absurd rfl hb1
    · decide
    · decide
    · exact absurd rfl hb2
  · apply Nat.testBit_lt_two_pow
    calc (9 : Nat) < 2 ^ 4 := by norm_num
      _ ≤ 2 ^ b := Nat.pow_le_pow_right (by norm_num) h

/-- C10 (witness): writing over a previous `cr1` value of 123 still yields the
fixed value, and bit 7 (the ARPE position) reads 0 afterwards. -/
theorem generate_clears_other_bits_witness :
    generate 123 = cr1_write_value ∧
    generate 123 = generate 0 ∧
    Nat.testBit (generate 123) 7 = false :=
  generate_clears_other_bits 123 7 (by decide) (by decide)

/-- C1: for every peripheral clock and every period (a `u32` microsecond
count) whose raw cycle count is nonzero and fits the prescaler × reload
dynamic range (`≤ 0xffff * 0x10000`, so the `psc as u16` cast is lossless),
the programmed reload is exactly `period.cycles(freq)` (it fits 16 bits, on
both narrow and wide instances), the effective frequency is nonzero, and the
achieved period `(reload+1)/freq` differs from the requested period by at most
one effective-frequency tick `1/freq`. -/
theorem achieved_period_within_one_tick (clk us : Nat)
    (hus : us < 4294967296)
    (h1 : 1 ≤ clk * us / 1000000)
    (h2 : clk * us / 1000000 ≤ 0xffff * 0x10000) :
    reload clk us ≤ 0xffff ∧
    reload_programmed_16 clk us = reload clk us ∧
    reload_programmed_32 clk us = reload clk us ∧
    1 ≤ freq clk us ∧
    |((reload clk us : ℚ) + 1) / (freq clk us : ℚ) - (us : ℚ) / 1000000|
      ≤ 1 / (freq clk us : ℚ) := by
  -- the u32 reduction of the cycle count is the identity here
  have hcpp : cycles_per_period clk us = clk * us / 1000000 := by
    unfold cycles_per_period u32Size
    omega
  have hc1 : 1 ≤ cycles_per_period clk us := by rw [hcpp]; exact h1
  have hpsc : psc clk us = (clk * us / 1000000 - 1) / 0xffff := by
    rw [psc_eq_of_pos clk us hc1, hcpp]
  have hclk1 : 1 ≤ clk := by
    rcases Nat.eq_zero_or_pos clk with h | h
    · subst h; simp at h1
    · exact h
  -- a u32 period keeps the cycle count below 0xffff * clk
  have hckey : clk * us / 1000000 ≤ 65535 * clk := by
    calc clk * us / 1000000
        ≤ clk * 65535000000 / 1000000 :=
          Nat.div_le_div_right (Nat.mul_le_mul_left _ (by omega))
      _ = clk * 65535 := by
          rw [show (65535000000 : Nat) = 65535 * 1000000 from by norm_num,
            ← Nat.mul_assoc, Nat.mul_div_cancel _ (by norm_num)]
      _ = 65535 * clk := Nat.mul_comm _ _
  have hpsc_lt : psc clk us < clk := by
    rw [hpsc]
    exact (Nat.div_lt_iff_lt_mul (by norm_num : (0:Nat) < 0xffff)).mpr (by omega)
  have hfreq1 : 1 ≤ freq clk us := by
    unfold freq
    exact (Nat.one_le_div_iff (by omega)).mpr (by omega)
  -- chosen prescaler bounds the un-prescaled cycle count
  have hub : clk * us / 1000000 ≤ (psc clk us + 1) * 65535 := by
    have hd := Nat.div_add_mod (clk * us / 1000000 - 1) 65535
    have hm : (clk * us / 1000000 - 1) % 65535 < 65535 := Nat.mod_lt _ (by norm_num)
    rw [hpsc]
    omega
  have hfc : freq clk us * (psc clk us + 1) ≤ clk :=
    Nat.div_mul_le_self clk (psc clk us + 1)
  -- the computed reload fits 16 bits
  have usf_lt : us * freq clk us * (psc clk us + 1)
      < 65536000000 * (psc clk us + 1) := by
    have k2 := Nat.div_add_mod (clk * us) 1000000
    have k3 : clk * us % 1000000 < 1000000 := Nat.mod_lt _ (by norm_num)
    calc us * freq clk us * (psc clk us + 1)
        = us * (freq clk us * (psc clk us + 1)) := Nat.mul_assoc _ _ _
      _ ≤ us * clk := Nat.mul_le_mul_left us hfc
      _ = clk * us := Nat.mul_comm _ _
      _ < 1000000 * (clk * us / 1000000) + 1000000 := by omega
      _ ≤ 1000000 * ((psc clk us + 1) * 65535) + 1000000 := by
          have := hub; omega
      _ ≤ 65536000000 * (psc clk us + 1) := by
          have hp0 : 0 ≤ psc clk us := Nat.zero_le _
          nlinarith
  have usf_lt' : us * freq clk us < 65536000000 :=
    lt_of_mul_lt_mul_right usf_lt (Nat.zero_le _)
  have hr : reload clk us ≤ 65535 := by
    unfold reload cycles
    have : us * freq clk us / 1000000 < 65536 := by
      rw [Nat.div_lt_iff_lt_mul (by norm_num : (0:Nat) < 1000000)]
      calc us * freq clk us < 65536000000 := usf_lt'
        _ = 65536 * 1000000 := by norm_num
    omega
  have hr16 : reload_programmed_16 clk us = reload clk us := by
    unfold reload_programmed_16
    exact Nat.mod_eq_of_lt (by omega)
  have hr32 : reload_programmed_32 clk us = reload clk us := by
    unfold reload_programmed_32
    rw [Nat.mod_eq_of_lt (show reload clk us < 65536 by omega),
      Nat.div_eq_of_lt (show reload clk us < 65536 by omega)]
    simp
  refine ⟨hr, hr16, hr32, hfreq1, ?_⟩
  -- floor bounds for the reload computation, in ℚ
  have hlow : reload clk us * 1000000 ≤ us * freq clk us := by
    unfold reload cycles
    exact Nat.div_mul_le_self _ _
  have hhigh : us * freq clk us < (reload clk us + 1) * 1000000 := by
    unfold reload cycles
    have hd := Nat.div_add_mod (us * freq clk us) 1000000
    have hm : us * freq clk us % 1000000 < 1000000 := Nat.mod_lt _ (by norm_num)
    omega
  have hFpos : (0 : ℚ) < (freq clk us : ℚ) := by exact_mod_cast hfreq1
  have key1 : (reload clk us : ℚ) * 1000000 ≤ (us : ℚ) * (freq clk us : ℚ) := by
    exact_mod_cast hlow
  have key2 : (us : ℚ) * (freq clk us : ℚ) < ((reload clk us : ℚ) + 1) * 1000000 := by
    exact_mod_cast hhigh
  have heq : ((reload clk us : ℚ) + 1) / (freq clk us : ℚ) - (us : ℚ) / 1000000
      = (((reload clk us : ℚ) + 1) * 1000000 - (us : ℚ) * (freq clk us : ℚ))
        / ((freq clk us : ℚ) * 1000000) := by
    field_simp
    ring
  have hden : (0 : ℚ) < (freq clk us : ℚ) * 1000000 :=
    mul_pos hFpos (by norm_num)
  rw [heq, abs_div, abs_of_pos hden, div_le_div_iff₀ hden hFpos]
  have hnum_nonneg : 0 ≤ ((reload clk us : ℚ) + 1) * 1000000
      - (us : ℚ) * (freq clk us : ℚ) := by linarith
  have hnum_le : ((reload clk us : ℚ) + 1) * 1000000
      - (us : ℚ) * (freq clk us : ℚ) ≤ 1000000 := by linarith
  rw [abs_of_nonneg hnum_nonneg]
  nlinarith [mul_le_mul_of_nonneg_right hnum_le hFpos.le]

/-- C1 (witness): the one-tick bound at 48 MHz and 1000 µs. -/
theorem achieved_period_within_one_tick_witness :
    reload 48000000 1000 ≤ 0xffff ∧
    reload_programmed_16 48000000 1000 = reload 48000000 1000 ∧
    reload_programmed_32 48000000 1000 = reload 48000000 1000 ∧
    1 ≤ freq 48000000 1000 ∧
    |((reload 48000000 1000 : ℚ) + 1) / (freq 48000000 1000 : ℚ)
        - ((1000 : Nat) : ℚ) / 1000000|
      ≤ 1 / (freq 48000000 1000 : ℚ) :=
  achieved_period_within_one_tick 48000000 1000 (by norm_num) (by norm_num)
    (by norm_num)

end OpmSpec
